import Mathlib

/-!
Verification of the AutoPot command router (`autopot/router.py`), filesystem
snapshot (`autopot/fs_snapshot.py`) and LLM backend wrapper
(`autopot/llm/__init__.py`) against the natural-language specification.

The Python code is shallowly embedded: pure functions become Lean functions,
the session object becomes an explicit state value threaded through
`dispatch`, and the effectful collaborators of the router (the `id`/`whoami`/
`history` handlers, the scenario asset store, and the two LLM backends) become
fields of an explicit environment record holding the result each collaborator
would produce.  Python strings are Lean `String`s; `len(s)` is the code-point
count `s.data.length` and `len(s.encode())` is the UTF-8 byte count, modelled
by `byteLen` below.  Python string helpers used by the router (`strip`,
`split`, `join`, `startswith`) are re-implemented by structural recursion on
`List Char` so that every definition evaluates by `rfl`/`decide`.
-/

/-! ## Python string primitives -/

/-- Model of Python `s.strip()`: drop leading and trailing whitespace. -/
def pyStrip (s : String) : String :=
  ⟨((s.data.dropWhile Char.isWhitespace).reverse.dropWhile Char.isWhitespace).reverse⟩

/-- Split a character list at every occurrence of `sep`, keeping empty groups,
exactly like Python `s.split(sep)` for a one-character separator. -/
def splitChOn (sep : Char) : List Char → List (List Char)
  | [] => [[]]
  | c :: cs =>
    match splitChOn sep cs with
    | [] => [[]]
    | g :: gs => if c = sep then [] :: g :: gs else (c :: g) :: gs

/-- Model of Python `s.split("/")`. -/
def pySplitSlash (s : String) : List String :=
  (splitChOn '/' s.data).map (fun g => ⟨g⟩)

/-- Model of Python `s.split(".")`. -/
def pySplitDot (s : String) : List String :=
  (splitChOn '.' s.data).map (fun g => ⟨g⟩)

/-- Split a character list at every character satisfying `p`, keeping empty
groups (helper for whitespace splitting). -/
def splitChBy (p : Char → Bool) : List Char → List (List Char)
  | [] => [[]]
  | c :: cs =>
    match splitChBy p cs with
    | [] => [[]]
    | g :: gs => if p c then [] :: g :: gs else (c :: g) :: gs

/-- Model of Python `s.split()` (no argument): split on whitespace runs and
discard empty tokens.  Used as the concrete tokenizer in closed examples;
`dispatch` itself is parameterized over the tokenizer, since the router uses
`shlex.split` with this naive split as fallback. -/
def pySplitWs (s : String) : List String :=
  ((splitChBy Char.isWhitespace s.data).filter (fun g => g ≠ [])).map (fun g => ⟨g⟩)

/-- Model of Python `s.startswith(c)` for a one-character argument. -/
def startsWithCh (c : Char) (s : String) : Bool :=
  match s.data with
  | [] => false
  | c' :: _ => c' = c

/-- Model of Python `sep.join(parts)`. -/
def joinWith (sep : String) : List String → String
  | [] => ""
  | [p] => p
  | p :: q :: ps => p ++ sep ++ joinWith sep (q :: ps)

/-- Model of Python `f"{s:>w}"`: left-pad with spaces to width `w`. -/
def padLeft (w : Nat) (s : String) : String :=
  (⟨List.replicate (w - s.data.length) ' '⟩ : String) ++ s

/-- UTF-8 size in bytes of one code point (Python `len(c.encode())`). -/
def charBytes (c : Char) : Nat :=
  if c.toNat < 128 then 1
  else if c.toNat < 2048 then 2
  else if c.toNat < 65536 then 3
  else 4

/-- Model of Python `len(s.encode())`: UTF-8 byte length of a string. -/
def byteLen (s : String) : Nat :=
  (s.data.map charBytes).sum

/-- Model of Python slicing `s[:n]`: the first `n` code points. -/
def pyTake (s : String) (n : Nat) : String :=
  ⟨s.data.take n⟩

/-! ## Output truncation (router.py, the repeated pattern
`truncated = len(out.encode()) > self.max_output; return (out[:max_output],
truncated)`, e.g. lines 100-101 and 204-205) -/

/-- Clip an output string as `Router.dispatch` does: the returned text is
`out[:max_output]` (a code-point slice) while the `truncated` flag is computed
from the byte length of the untruncated text. -/
def clipOutput (max_output : Nat) (out : String) : String × Bool :=
  (pyTake out max_output, decide (max_output < byteLen out))

/-! ## Filesystem snapshot (fs_snapshot.py) -/

/-- Scenario filesystem node, modelling the JSON dicts consumed by
`FileSystemSnapshot`.  A missing `"type"`/`"name"` key is modelled as `""`
(both compare unequal to `"dir"` and are falsy, as in the source), a missing
`"children"` key as `[]`, and a missing or null `"size"` as `0` (the source
reads `node.get("size", 0) or 0`). -/
inductive FSNode : Type where
  | mk (typ : String) (name : String) (children : List FSNode) (size : Nat)

/-- Field accessor for the `"type"` key. -/
def FSNode.typ : FSNode → String
  | .mk t _ _ _ => t

/-- Field accessor for the `"name"` key. -/
def FSNode.name : FSNode → String
  | .mk _ n _ _ => n

/-- Field accessor for the `"children"` key. -/
def FSNode.children : FSNode → List FSNode
  | .mk _ _ cs _ => cs

/-- Field accessor for the `"size"` key. -/
def FSNode.size : FSNode → Nat
  | .mk _ _ _ s => s

/-- The index of a `FileSystemSnapshot`: the Python dict
`self._index : Dict[Tuple[str, ...], node]` is modelled as the list of
assignments performed by `_build_index`, in execution order; lookup takes the
last assignment to a key, matching dict overwrite semantics. -/
abbrev FSIndex := List (List String × FSNode)

mutual
/-- Model of `FileSystemSnapshot._build_index`: record the assignment
`index[rel_path] = node`, then recurse into the children of `dir` nodes,
skipping children whose name is falsy. -/
def build_index : FSNode → List String → FSIndex
  | .mk typ name cs size, rel =>
    (rel, .mk typ name cs size) :: (if typ = "dir" then build_children cs rel else [])

/-- The loop `for child in node.get("children", [])` of `_build_index`. -/
def build_children : List FSNode → List String → FSIndex
  | [], _ => []
  | c :: cs, rel =>
    (if c.name = "" then [] else build_index c (rel ++ [c.name])) ++ build_children cs rel
end

/-- Model of `FileSystemSnapshot.get_node`: dict lookup, i.e. the value of the
last assignment to `rel`, or `none`. -/
def get_node (idx : FSIndex) (rel : List String) : Option FSNode :=
  (idx.reverse.find? (fun p => p.1 == rel)).map (fun p => p.2)

/-- Model of `FileSystemSnapshot.list_dir`. -/
def list_dir (idx : FSIndex) (rel : List String) : Option (List FSNode) :=
  match get_node idx rel with
  | none => none
  | some n => if n.typ = "dir" then some n.children else none

/-! ## Path resolution (router.py `_resolve_target_parts`, lines 526-557) -/

/-- `BASE_FS_PATH_PARTS` from fs_snapshot.py. -/
def BASE_FS_PATH_PARTS : List String := ["home", "user"]

/-- `ROOT_FS_PATH = "/" + "/".join(BASE_FS_PATH_PARTS)` from fs_snapshot.py. -/
def ROOT_FS_PATH : String := "/" ++ joinWith "/" BASE_FS_PATH_PARTS

/-- One iteration of the absolute-path loop of `_resolve_target_parts`
(lines 530-537): skip empty and `"."` segments, pop the last accumulated
segment on `".."` (`parts.pop()` guarded only by `if parts`), append any other
segment. -/
def absStep (parts : List String) (entry : String) : List String :=
  if entry = "" ∨ entry = "." then parts
  else if entry = ".." then parts.dropLast
  else parts ++ [entry]

/-- One iteration of the relative-path loop of `_resolve_target_parts`
(lines 549-556): as `absStep`, except that `".."` pops only while strictly
more segments than the base are present. -/
def relStep (parts : List String) (entry : String) : List String :=
  if entry = "" ∨ entry = "." then parts
  else if entry = ".." then
    (if BASE_FS_PATH_PARTS.length < parts.length then parts.dropLast else parts)
  else parts ++ [entry]

/-- The absolute-target branch of `_resolve_target_parts` (lines 528-542):
fold the segments with `absStep`, then fail unless the result extends
`BASE_FS_PATH_PARTS`. -/
def resolve_abs (target : String) : Option (List String) :=
  let parts := (pySplitSlash target).foldl absStep []
  if parts.length < BASE_FS_PATH_PARTS.length then none
  else if parts.take BASE_FS_PATH_PARTS.length ≠ BASE_FS_PATH_PARTS then none
  else some parts

/-- The relative-target branch of `_resolve_target_parts` (lines 544-557):
normalize the current directory's segments (falling back to the base when it
does not extend the base), then fold the target's segments with `relStep`.
The Python computation `[pt for pt in cwd.strip("/").split("/") if pt]`
equals splitting the raw string on `/` and dropping empty segments, which is
how it is written here. -/
def resolve_rel (cwd : String) (target : String) : List String :=
  let cwd0 := (pySplitSlash cwd).filter (fun pt => pt ≠ "")
  let cwd_parts :=
    if cwd0.length < BASE_FS_PATH_PARTS.length ∨
        cwd0.take BASE_FS_PATH_PARTS.length ≠ BASE_FS_PATH_PARTS then
      BASE_FS_PATH_PARTS
    else cwd0
  (pySplitSlash target).foldl relStep cwd_parts

/-- Model of `Router._resolve_target_parts`. -/
def resolve_target_parts (cwd : String) (target : String) : Option (List String) :=
  let target := pyStrip target
  if startsWithCh '/' target then resolve_abs target
  else some (resolve_rel cwd target)

/-! ## Session state (session.py) -/

/-- The slice of `Session` that `Router.dispatch` reads or writes.  A `None`
username is modelled as `""` (both are falsy in the `or` fallbacks of the
source).  `fsIndex` is the result of `Router._get_fs_snapshot`: `none` when no
scenario filesystem is available, otherwise the built index (the caching of
the snapshot on the session does not affect any field modelled here). -/
structure Sess : Type where
  username : String
  cwd : String
  history : List String
  fsIndex : Option FSIndex

/-- Replace the current directory (the assignment `session.cwd = ...`). -/
def Sess.setCwd (s : Sess) (cwd : String) : Sess :=
  ⟨s.username, cwd, s.history, s.fsIndex⟩

/-! ## ls formatting (router.py lines 34-45) -/

def DEFAULT_DIR_PERMS : String := "drwxr-xr-x"

def DEFAULT_FILE_PERMS : String := "-rw-r--r--"

def DEFAULT_OWNER : String := "user"

def DEFAULT_GROUP : String := "user"

def DEFAULT_TIMESTAMP : String := "Jan 01 00:00"

/-- Model of `_format_ls_entry`, including the `{links:>3}` and `{size:>8}`
field widths of the f-string. -/
def format_ls_entry (node : FSNode) (name : String) : String :=
  let perms := if node.typ = "dir" then DEFAULT_DIR_PERMS else DEFAULT_FILE_PERMS
  let links : Nat := if node.typ = "dir" then 2 else 1
  perms ++ " " ++ padLeft 3 (toString links) ++ " " ++ DEFAULT_OWNER ++ " " ++
    DEFAULT_GROUP ++ " " ++ padLeft 8 (toString node.size) ++ " " ++
    DEFAULT_TIMESTAMP ++ " " ++ name

/-! ## Filesystem builtins (router.py lines 444-502) -/

/-- Error message of `_handle_cd`.  In the source `display` is
`argv[1] if len(argv) > 1 else dest`, which always equals `dest`. -/
def cdErrMsg (display : String) : String :=
  "bash: cd: " ++ display ++ ": No such file or directory"

/-- Model of `Router._handle_cd` (lines 456-471).  Returns `none` when no
snapshot is available (the builtin then falls through in `dispatch`),
otherwise the `(output, truncated)` pair together with the resulting session
state. -/
def handle_cd (sess : Sess) (argv : List String) : Option ((String × Bool) × Sess) :=
  let dest := if 1 < argv.length then argv.getD 1 "" else ROOT_FS_PATH
  match sess.fsIndex with
  | none => none
  | some idx =>
    match resolve_target_parts sess.cwd dest with
    | none => some ((cdErrMsg dest, false), sess)
    | some parts =>
      let rel := parts.drop BASE_FS_PATH_PARTS.length
      match get_node idx rel with
      | none => some ((cdErrMsg dest, false), sess)
      | some node =>
        if node.typ = "dir" then
          some (("", false), sess.setCwd ("/" ++ joinWith "/" parts))
        else
          some ((cdErrMsg dest, false), sess)

/-- The filter `arg and not arg.startswith("-")` of `_handle_ls`. -/
def lsArgKeep (a : String) : Bool :=
  decide (a ≠ "") && ! startsWithCh '-' a

/-- Error message of `_handle_ls` (`display = target or "."`). -/
def lsErrMsg (target : String) : String :=
  "ls: cannot access '" ++ (if target = "" then "." else target) ++
    "': No such file or directory"

/-- Model of `Router._handle_ls` (lines 473-502).  `_handle_ls` never mutates
the session, so only the `(output, truncated)` pair is returned. -/
def handle_ls (sess : Sess) (argv : List String) : Option (String × Bool) :=
  match sess.fsIndex with
  | none => none
  | some idx =>
    let args := (argv.drop 1).filter lsArgKeep
    let target := args.headD ""  -- args[0] if args else ""
    match resolve_target_parts sess.cwd target with
    | none => some (lsErrMsg target, false)
    | some parts =>
      let rel := parts.drop BASE_FS_PATH_PARTS.length
      match get_node idx rel with
      | none => some (lsErrMsg target, false)
      | some node =>
        if node.typ ≠ "dir" then
          -- display_name = node.get("name") or target or ""
          let display_name := if node.name ≠ "" then node.name else target
          some (format_ls_entry node display_name, false)
        else
          let children := (list_dir idx rel).getD []
          let parent_rel := rel.dropLast
          let parent_node := (get_node idx parent_rel).getD node
          let sorted_children := children.mergeSort (fun a b => a.name ≤ b.name)
          let lines := [format_ls_entry node ".", format_ls_entry parent_node ".."] ++
            sorted_children.map (fun c => format_ls_entry c c.name)
          some (joinWith "\n" lines, false)

/-- Model of `Router._handle_builtin` (lines 444-454). -/
def handle_builtin (sess : Sess) (argv : List String) : Option ((String × Bool) × Sess) :=
  match argv with
  | [] => none
  | cmd :: _ =>
    if cmd = "pwd" then some ((sess.cwd, false), sess)
    else if cmd = "cd" then handle_cd sess argv
    else if cmd = "ls" then (handle_ls sess argv).map (fun r => (r, sess))
    else none

/-! ## LLM simulation plumbing (router.py lines 207-394) -/

/-- The normalized structured response dict `{stdout, stderr, exit_code,
explanation}`.  `exit_code` is `Option Int` so that a missing (or non-integer)
key compares unequal to `0` as in `response.get("exit_code") == 0`; a missing
`stdout`/`stderr`/`explanation` key is modelled as `""` (the `.get(..., "")`
defaults, and Python truthiness of the missing value). -/
structure SimResp : Type where
  stdout : String
  stderr : String
  exit_code : Option Int
  explanation : String
  deriving DecidableEq

/-- Model of a value returned by `LLMClient.simulate_command` as seen by the
router, which only distinguishes dict from non-dict responses. -/
inductive LLMResp : Type where
  | notDict
  | dict (r : SimResp)

/-- Model of `Router._format_simulated_output` (lines 251-256):
`"\n".join([stdout, stderr])` when both are non-empty, else
`stdout or stderr or ""`. -/
def format_simulated_output (r : SimResp) : String :=
  if r.stdout ≠ "" ∧ r.stderr ≠ "" then r.stdout ++ "\n" ++ r.stderr
  else if r.stdout ≠ "" then r.stdout
  else r.stderr

/-- Model of `Router._score_response` (lines 258-289).  `len(stdout)` is the
code-point count `r.stdout.data.length`. -/
def score_response (response : Option SimResp) (is_valid : Bool) : Nat :=
  match is_valid, response with
  | false, _ => 0
  | true, none => 0
  | true, some r =>
    10 + (if r.exit_code = some 0 then 5 else 0)
       + (if r.stdout ≠ "" then 5 + (if 10 < r.stdout.data.length then 3 else 0) else 0)
       + (if r.stderr = "" then 2 else 0)
       + (if r.explanation ≠ "" then 1 else 0)

/-- The `{"valid": ..., "response": ...}` dict built by
`Router._query_single_llm`. -/
structure QueryResult : Type where
  valid : Bool
  response : Option SimResp

/-- Model of `Router._query_single_llm` (lines 365-394): a missing client, a
raised exception, or a non-dict response all yield an invalid result; a dict
response is returned as valid. -/
def query_single_llm (client : Option (Except Unit LLMResp)) : QueryResult :=
  match client with
  | none => ⟨false, none⟩
  | some (.error _) => ⟨false, none⟩
  | some (.ok .notDict) => ⟨false, none⟩
  | some (.ok (.dict r)) => ⟨true, some r⟩

/-- Model of `Router._simulate_with_ensemble` (lines 291-363), with the two
`_query_single_llm` results already computed (the concurrent gather, logging
and statistics updates do not affect the returned value).  The `.getD`
defaults are unreachable: a positive score forces `response` to be `some`. -/
def simulate_with_ensemble (max_output : Nat) (cmd : String)
    (primary_result secondary_result : QueryResult) : String × Bool :=
  let primary_score := score_response primary_result.response primary_result.valid
  let secondary_score := score_response secondary_result.response secondary_result.valid
  if secondary_score ≤ primary_score ∧ 0 < primary_score then
    clipOutput max_output
      (format_simulated_output (primary_result.response.getD ⟨"", "", none, ""⟩))
  else if 0 < secondary_score then
    clipOutput max_output
      (format_simulated_output (secondary_result.response.getD ⟨"", "", none, ""⟩))
  else
    ("sh: " ++ cmd ++ ": command not found", false)

/-- Model of `Router._simulate_with_llm` (lines 207-249): an exception from
the backend call or a non-dict response becomes `"sh: <cmd>: command not
found"`; a dict response is formatted and clipped. -/
def simulate_with_llm (max_output : Nat) (cmd : String)
    (result : Except Unit LLMResp) : String × Bool :=
  match result with
  | .error _ => ("sh: " ++ cmd ++ ": command not found", false)
  | .ok .notDict => ("sh: " ++ cmd ++ ": command not found", false)
  | .ok (.dict r) => clipOutput max_output (format_simulated_output r)

/-! ## The router environment and dispatch (router.py lines 48-205) -/

/-- `TXT_CMD_MAP` from router.py. -/
def TXT_CMD_MAP : List (String × String) :=
  [("pwd", "pwd.txt"), ("ls", "ls.txt"), ("df", "df.txt"), ("ps", "ps.txt"),
   ("busybox", "busybox.txt")]

/-- Model of Python `mapped.rsplit(".", 1)[0]`. -/
def rsplitBase (s : String) : String :=
  let gs := pySplitDot s
  if gs.length ≤ 1 then s else joinWith "." gs.dropLast

/-- The effectful collaborators of `Router.dispatch`, with the result each
would produce on this call.  `txtcmd name` models
`scenario_mgr.get_txtcmd_path(session, name)` composed with the file read:
`none` when no asset path is found (or the lookup raises), `some none` when
the path exists but reading it raises (`_read_txt_file` then returns
`("", False)`), and `some (some text)` for a successful read.  `llm_client`
and `llm_client_secondary` are `none` when the respective client is not
configured, otherwise the outcome of its `simulate_command` call (`.error` for
a raised exception). -/
structure DispatchEnv : Type where
  max_output : Nat
  idRun : Except Unit String
  whoamiRun : Except Unit String
  historyRun : Except Unit String
  txtcmd : String → Option (Option String)
  ensemble_mode : Bool
  llm_client : Option (Except Unit LLMResp)
  llm_client_secondary : Option (Except Unit LLMResp)

/-- Model of `Router._read_txt_file` (lines 197-205) given the read outcome. -/
def read_txt_file (max_output : Nat) (content : Option String) : String × Bool :=
  match content with
  | none => ("", false)
  | some text => clipOutput max_output text

/-- Model of `Router.dispatch` (lines 75-195).  `tok` abstracts the
tokenization step (`shlex.split` with a naive-split fallback); `pySplitWs` is
the concrete instance used in closed examples, and every theorem below holds
for an arbitrary tokenizer.  Logging calls are dropped; they do not affect the
returned value or the modelled session fields. -/
def dispatch (env : DispatchEnv) (tok : String → List String) (sess : Sess)
    (line : String) : (String × Bool) × Sess :=
  let line := pyStrip line
  if line = "" then (("", false), sess)
  else
    let argv := tok line
    let cmd := match argv with | [] => "" | c :: _ => c
    if cmd = "id" then
      let out := match env.idRun with
        | .ok s => s
        | .error _ => "uid=0(root) gid=0(root) groups=0(root)"
      (clipOutput env.max_output out, sess)
    else if cmd = "whoami" then
      let out := match env.whoamiRun with
        | .ok s => s
        | .error _ => if sess.username = "" then "guest" else sess.username
      (clipOutput env.max_output out, sess)
    else if cmd = "history" then
      let out := match env.historyRun with
        | .ok s => s
        | .error _ => joinWith "\n" sess.history
      (clipOutput env.max_output out, sess)
    else if cmd = "cat" ∧ 2 ≤ argv.length ∧
        (argv.getD 1 "" = "/etc/passwd" ∨ argv.getD 1 "" = "etc/passwd") then
      ((match env.txtcmd "etc_passwd" with
        | some content => read_txt_file env.max_output content
        | none => ("", false)), sess)
    else if cmd = "cat" ∧ 2 ≤ argv.length ∧
        (argv.getD 1 "" = "/etc/shadow" ∨ argv.getD 1 "" = "etc/shadow") then
      ((match env.txtcmd "etc_shadow" with
        | some content => read_txt_file env.max_output content
        | none => ("", false)), sess)
    else
      match handle_builtin sess argv with
      | some ((out, _), sess') => (clipOutput env.max_output out, sess')
      | none =>
        match TXT_CMD_MAP.find? (fun p => p.1 == cmd) with
        | some mapped =>
          ((match env.txtcmd (rsplitBase mapped.2) with
            | some content => read_txt_file env.max_output content
            | none => ("sh: " ++ cmd ++ ": command not found", false)), sess)
        | none =>
          match env.txtcmd cmd with
          | some content => (read_txt_file env.max_output content, sess)
          | none =>
            if env.ensemble_mode ∧ env.llm_client.isSome ∧
                env.llm_client_secondary.isSome then
              (simulate_with_ensemble env.max_output cmd
                (query_single_llm env.llm_client)
                (query_single_llm env.llm_client_secondary), sess)
            else
              match env.llm_client with
              | some result => (simulate_with_llm env.max_output cmd result, sess)
              | none => (("sh: " ++ cmd ++ ": command not found", false), sess)

/-! ## Backend wrapper (llm/__init__.py `BaseLLMClient.simulate_command`,
lines 123-136, and `_validate_and_parse_json`, lines 89-110) -/

/-- A simulate-command dict as parsed from raw model output, before the
`setdefault` normalization: `none` marks a missing key. -/
structure RawSimResp : Type where
  stdout : Option String
  stderr : Option String
  exit_code : Option Int
  explanation : Option String

/-- The `parsed.setdefault(...)` block of `simulate_command`: missing keys are
filled with `""`, `""`, `1`, `""` respectively. -/
def normalize_sim (r : RawSimResp) : SimResp :=
  ⟨r.stdout.getD "", r.stderr.getD "", some (r.exit_code.getD 1), r.explanation.getD ""⟩

/-- Model of `_validate_and_parse_json` for the simulate schema.  The guard
`if not text or not text.strip(): return None` is concrete; the `json.loads`
plus `jsonschema.validate` machinery on non-blank text is abstracted as the
`parse` parameter (`none` = parse or validation failure). -/
def validate_and_parse_json (text : String) (parse : String → Option RawSimResp) :
    Option RawSimResp :=
  if text = "" ∨ pyStrip text = "" then none else parse text

/-- The hard-coded dict returned by `simulate_command` when parsing fails. -/
def fallback_sim : SimResp :=
  ⟨"", "llm-parse-error", some 1, "failed to parse LLM output"⟩

/-- Model of `BaseLLMClient.simulate_command` given the `_raw_generate`
outcome (`.error` = the provider call raised; such exceptions propagate) and
the JSON parse function. -/
def simulate_command (raw : Except Unit String) (parse : String → Option RawSimResp) :
    Except Unit SimResp :=
  match raw with
  | .error e => .error e
  | .ok text =>
    match validate_and_parse_json text parse with
    | none => .ok fallback_sim
    | some parsed => .ok (normalize_sim parsed)

/-! ## Basic facts about clipping -/

theorem mk_data (s : String) : (⟨s.data⟩ : String) = s := by
  cases s; rfl

theorem one_le_charBytes (c : Char) : 1 ≤ charBytes c := by
  unfold charBytes
  repeat' split
  all_goals omega

theorem length_le_sum_charBytes (l : List Char) : l.length ≤ (l.map charBytes).sum := by
  induction l with
  | nil => simp
  | cons c cs ih =>
    have := one_le_charBytes c
    simp only [List.map_cons, List.sum_cons, List.length_cons]
    omega

theorem sum_charBytes_of_ascii (l : List Char) (h : ∀ c ∈ l, c.toNat < 128) :
    (l.map charBytes).sum = l.length := by
  induction l with
  | nil => simp
  | cons c cs ih =>
    have hc : charBytes c = 1 := by
      unfold charBytes
      rw [if_pos (h c (by simp))]
    simp only [List.map_cons, List.sum_cons, List.length_cons, hc,
      ih (fun x hx => h x (by simp [hx]))]
    omega

theorem clip_empty (m : Nat) : clipOutput m "" = ("", false) := by
  have hd : ("" : String).data = [] := rfl
  unfold clipOutput pyTake byteLen
  rw [hd]
  simp

theorem read_txt_shape (m : Nat) (c : Option String) :
    ∃ text, read_txt_file m c = clipOutput m text := by
  cases c with
  | none => exact ⟨"", (clip_empty m).symm⟩
  | some t => exact ⟨t, rfl⟩

theorem sim_llm_shape (m : Nat) (cmd : String) (res : Except Unit LLMResp) :
    (∃ t, simulate_with_llm m cmd res = clipOutput m t) ∨
      simulate_with_llm m cmd res = ("sh: " ++ cmd ++ ": command not found", false) := by
  cases res with
  | error e => exact Or.inr rfl
  | ok r =>
    cases r with
    | notDict => exact Or.inr rfl
    | dict r => exact Or.inl ⟨format_simulated_output r, rfl⟩

theorem sim_ensemble_shape (m : Nat) (cmd : String) (p s : QueryResult) :
    (∃ t, simulate_with_ensemble m cmd p s = clipOutput m t) ∨
      simulate_with_ensemble m cmd p s = ("sh: " ++ cmd ++ ": command not found", false) := by
  simp only [simulate_with_ensemble]
  split
  · exact Or.inl ⟨_, rfl⟩
  · split
    · exact Or.inl ⟨_, rfl⟩
    · exact Or.inr rfl

/-- C1 counterexample: with `max_output = 1` and an `id` handler output `"é"`
(two UTF-8 bytes, one code point), `Router.dispatch` reports `truncated =
true` but returns a string whose byte length is 2, not `max_output = 1` —
refuting the claim that the returned string's byte length is exactly
`max_output` whenever the full text exceeds it. -/
theorem dispatch_truncation_cex :
    (dispatch ⟨1, .ok "é", .ok "", .ok "", fun _ => none, false, none, none⟩
        pySplitWs ⟨"", "/home/user", [], none⟩ "id").1.2 = true ∧
    byteLen (dispatch ⟨1, .ok "é", .ok "", .ok "", fun _ => none, false, none, none⟩
        pySplitWs ⟨"", "/home/user", [], none⟩ "id").1.1 ≠ 1 := by
  decide

/-- C1 (amended): every `Router.dispatch` result is either `clipOutput` of the
branch's full response text — the first `max_output` code points of it,
with the `truncated` flag computed from the byte length of the untruncated
text — or one of the `"sh: <cmd>: command not found"` fallbacks, which are
returned unclipped with `truncated = false`.  When the full text fits in
`max_output` bytes it is returned unmodified with `truncated = false`, and
for ASCII-only text the originally claimed byte-exact property holds:
the returned byte length is `min (byteLen text) max_output`. -/
theorem dispatch_clip_shape :
    ∀ (env : DispatchEnv) (tok : String → List String) (sess : Sess) (line : String),
    ((∃ text, (dispatch env tok sess line).1 = clipOutput env.max_output text) ∨
      (∃ c, (dispatch env tok sess line).1 = ("sh: " ++ c ++ ": command not found", false)))
    ∧ (∀ (m : Nat) (text : String), byteLen text ≤ m → clipOutput m text = (text, false))
    ∧ (∀ (m : Nat) (text : String), ((clipOutput m text).2 = true ↔ m < byteLen text))
    ∧ (∀ (m : Nat) (text : String), text.data.all (fun c => c.toNat < 128) = true →
        byteLen (clipOutput m text).1 = min (byteLen text) m) := by
  intro env tok sess line
  refine ⟨?_, ?_, ?_, ?_⟩
  · simp only [dispatch]
    repeat' split
    all_goals
      first
      | exact Or.inl ⟨"", (clip_empty _).symm⟩
      | exact Or.inl ⟨_, rfl⟩
      | exact Or.inl (read_txt_shape _ _)
      | exact Or.inr ⟨_, rfl⟩
      | exact (sim_ensemble_shape _ _ _ _).imp (fun h => h) (fun h => ⟨_, h⟩)
      | exact (sim_llm_shape _ _ _).imp (fun h => h) (fun h => ⟨_, h⟩)
  · intro m text h
    have hlen : text.data.length ≤ m :=
      le_trans (length_le_sum_charBytes text.data) h
    unfold clipOutput pyTake
    rw [List.take_of_length_le hlen, mk_data, decide_eq_false (Nat.not_lt.mpr h)]
  · intro m text
    simp [clipOutput]
  · intro m text h
    have h' : ∀ c ∈ text.data, c.toNat < 128 := by
      simpa using h
    show ((text.data.take m).map charBytes).sum = min ((text.data.map charBytes).sum) m
    rw [sum_charBytes_of_ascii _ (fun c hc => h' c (List.mem_of_mem_take hc)),
      sum_charBytes_of_ascii _ h', List.length_take]
    exact Nat.min_comm _ _

/-- Witness for `dispatch_clip_shape` at concrete inputs. -/
theorem dispatch_clip_shape_w :
    clipOutput 5 "abc" = ("abc", false) ∧
    byteLen (clipOutput 4 "abcdef").1 = min (byteLen "abcdef") 4 := by
  refine ⟨?_, ?_⟩
  · exact (dispatch_clip_shape ⟨0, .ok "", .ok "", .ok "", fun _ => none, false, none, none⟩
      (fun _ => []) ⟨"", "", [], none⟩ "").2.1 5 "abc" (by decide)
  · exact (dispatch_clip_shape ⟨0, .ok "", .ok "", .ok "", fun _ => none, false, none, none⟩
      (fun _ => []) ⟨"", "", [], none⟩ "").2.2.2 4 "abcdef" (by decide)

/-! ## Path resolver facts -/

theorem foldl_preserves {α β : Type} (P : α → Prop) (f : α → β → α)
    (hf : ∀ a b, P a → P (f a b)) :
    ∀ (l : List β) (a : α), P a → P (l.foldl f a)
  | [], _, h => h
  | b :: l, a, h => foldl_preserves P f hf l (f a b) (hf a b h)

/-- The base-prefix invariant maintained by the relative-path loop. -/
abbrev BaseInv (parts : List String) : Prop :=
  parts.take BASE_FS_PATH_PARTS.length = BASE_FS_PATH_PARTS ∧
    BASE_FS_PATH_PARTS.length ≤ parts.length

theorem relStep_inv (parts : List String) (e : String) (h : BaseInv parts) :
    BaseInv (relStep parts e) := by
  obtain ⟨h1, h2⟩ := h
  unfold relStep
  split
  · exact ⟨h1, h2⟩
  · split
    · split
      · rename_i hlt
        constructor
        · rw [List.dropLast_eq_take, List.take_take]
          rw [Nat.min_eq_left (by omega)]
          exact h1
        · rw [List.length_dropLast]
          omega
      · exact ⟨h1, h2⟩
    · constructor
      · rw [List.take_append_of_le_length h2]
        exact h1
      · rw [List.length_append]
        omega

theorem resolve_rel_inv (cwd target : String) : BaseInv (resolve_rel cwd target) := by
  simp only [resolve_rel]
  apply foldl_preserves BaseInv relStep relStep_inv
  split
  · exact ⟨List.take_length _, le_refl _⟩
  · rename_i hcond
    push_neg at hcond
    exact ⟨hcond.2, hcond.1⟩

theorem resolve_abs_inv (target : String) (parts : List String)
    (h : resolve_abs target = some parts) : BaseInv parts := by
  simp only [resolve_abs] at h
  split at h
  · exact absurd h (by simp)
  · split at h
    · exact absurd h (by simp)
    · rename_i hlen htake
      injection h with h'
      subst h'
      exact ⟨not_not.mp htake, Nat.le_of_not_lt hlen⟩

theorem resolve_abs_none_iff (target : String) :
    resolve_abs target = none ↔
      ¬ BaseInv ((pySplitSlash target).foldl absStep []) := by
  simp only [resolve_abs]
  constructor
  · intro hnone hb
    split at hnone
    · rename_i hlt
      omega
    · split at hnone
      · rename_i htake
        exact htake hb.1
      · exact absurd hnone (by simp)
  · intro hb
    split
    · rfl
    · split
      · rfl
      · rename_i hlen htake
        exact absurd ⟨not_not.mp htake, Nat.le_of_not_lt hlen⟩ hb

theorem resolve_branch_rel (cwd target : String)
    (h : startsWithCh '/' (pyStrip target) = false) :
    resolve_target_parts cwd target = some (resolve_rel cwd (pyStrip target)) := by
  simp only [resolve_target_parts, h]
  simp

theorem resolve_branch_abs (cwd target : String)
    (h : startsWithCh '/' (pyStrip target) = true) :
    resolve_target_parts cwd target = resolve_abs (pyStrip target) := by
  simp only [resolve_target_parts, h]
  simp

theorem resolve_base_inv (cwd target : String) (parts : List String)
    (h : resolve_target_parts cwd target = some parts) : BaseInv parts := by
  simp only [resolve_target_parts] at h
  split at h
  · exact resolve_abs_inv _ _ h
  · injection h with h'
    subst h'
    exact resolve_rel_inv cwd (pyStrip target)

/-- C4 counterexample: resolving the absolute target `"/home/user/.."` fails
(`None`, surfaced as an error by the callers), although its `".."` segments
only reach the fixed root boundary — refuting the claim that resolution
"never pops beyond the fixed root boundary" and that such a path "still
succeeds with the boundary as the result" for every target.  (The relative
branch does behave as claimed: `".."` from the boundary is a no-op.) -/
theorem resolve_absolute_dotdot_cex :
    resolve_target_parts "/home/user" "/home/user/.." = none ∧
    resolve_target_parts "/home/user" ".." = some BASE_FS_PATH_PARTS := by
  decide

/-- C4 (amended): for relative targets the claim holds — segments are folded
by `relStep` (empty and `"."` discarded, `".."` pops one segment but never
beyond the root boundary, others appended verbatim), resolution always
succeeds, and the result keeps the root boundary as a prefix.  For absolute
targets, however, `".."` pops unconditionally (`absStep`), and resolution
fails with `None` exactly when the folded segments no longer extend the
boundary — in particular when `".."` pops into or past the boundary prefix —
instead of succeeding with the boundary.  Every successful resolution still
has the boundary as a prefix. -/
theorem resolve_boundary_spec :
    ∀ (cwd target : String),
    (startsWithCh '/' (pyStrip target) = false →
      resolve_target_parts cwd target = some (resolve_rel cwd (pyStrip target)) ∧
      (resolve_rel cwd (pyStrip target)).take BASE_FS_PATH_PARTS.length =
        BASE_FS_PATH_PARTS)
    ∧ (startsWithCh '/' (pyStrip target) = true →
      (resolve_target_parts cwd target = none ↔
        ¬ BaseInv ((pySplitSlash (pyStrip target)).foldl absStep [])))
    ∧ (∀ parts, resolve_target_parts cwd target = some parts →
        parts.take BASE_FS_PATH_PARTS.length = BASE_FS_PATH_PARTS ∧
        BASE_FS_PATH_PARTS.length ≤ parts.length) := by
  intro cwd target
  refine ⟨?_, ?_, fun parts h => resolve_base_inv cwd target parts h⟩
  · intro h
    exact ⟨resolve_branch_rel cwd target h, (resolve_rel_inv cwd (pyStrip target)).1⟩
  · intro h
    rw [resolve_branch_abs cwd target h]
    exact resolve_abs_none_iff (pyStrip target)

/-- Witness for `resolve_boundary_spec` at concrete inputs. -/
theorem resolve_boundary_spec_w :
    resolve_target_parts "/home/user" "x/../.." = some ["home", "user"] ∧
    resolve_target_parts "/home/user" "/home/.." = none := by
  constructor
  · rw [((resolve_boundary_spec "/home/user" "x/../..").1 (by decide)).1]
    decide
  · rw [(resolve_boundary_spec "/home/user" "/home/..").2.1 (by decide)]
    decide

/-! ## The current-directory invariant -/

/-- The session's current directory begins with the fixed root prefix
`/home/user` (`ROOT_FS_PATH`). -/
def StartsWithRoot (s : String) : Prop :=
  ∃ rest, s.data = ROOT_FS_PATH.data ++ rest

theorem root_starts_with_root : StartsWithRoot ROOT_FS_PATH :=
  ⟨[], by simp⟩

theorem root_prefix_of_parts (parts : List String) (h : BaseInv parts) :
    StartsWithRoot ("/" ++ joinWith "/" parts) := by
  obtain ⟨h1, h2⟩ := h
  match parts, h1 with
  | a :: b :: rest, h1 =>
    have ha : a = "home" := by
      simpa [BASE_FS_PATH_PARTS, List.take] using congrArg (fun l => l.headD "") h1
    have hb : b = "user" := by
      simpa [BASE_FS_PATH_PARTS, List.take] using congrArg (fun l => (l.drop 1).headD "") h1
    subst ha
    subst hb
    match rest with
    | [] => exact ⟨[], by simp [joinWith, ROOT_FS_PATH, BASE_FS_PATH_PARTS]⟩
    | c :: cs =>
      refine ⟨("/" ++ joinWith "/" (c :: cs)).data, ?_⟩
      simp [joinWith, ROOT_FS_PATH, BASE_FS_PATH_PARTS, String.data_append]

theorem handle_cd_preserves_root (sess : Sess) (argv : List String)
    (r : (String × Bool) × Sess) (h : handle_cd sess argv = some r)
    (hs : StartsWithRoot sess.cwd) : StartsWithRoot r.2.cwd := by
  simp only [handle_cd] at h
  split at h
  · exact absurd h (by simp)
  · split at h
    · injection h with h'
      subst h'
      exact hs
    · rename_i parts hres
      split at h
      · injection h with h'
        subst h'
        exact hs
      · split at h
        · injection h with h'
          subst h'
          exact root_prefix_of_parts parts (resolve_base_inv _ _ _ hres)
        · injection h with h'
          subst h'
          exact hs

theorem handle_builtin_preserves_root (sess : Sess) (argv : List String)
    (r : (String × Bool) × Sess) (h : handle_builtin sess argv = some r)
    (hs : StartsWithRoot sess.cwd) : StartsWithRoot r.2.cwd := by
  simp only [handle_builtin] at h
  split at h
  · exact absurd h (by simp)
  · rename_i cmd rest
    split at h
    · injection h with h'
      subst h'
      exact hs
    · split at h
      · exact handle_cd_preserves_root sess _ r h hs
      · split at h
        · match hls : handle_ls sess (cmd :: rest) with
          | none => rw [hls] at h; exact absurd h (by simp)
          | some out =>
            rw [hls] at h
            injection h with h'
            subst h'
            exact hs
        · exact absurd h (by simp)

theorem dispatch_preserves_root (env : DispatchEnv) (tok : String → List String)
    (sess : Sess) (line : String) (hs : StartsWithRoot sess.cwd) :
    StartsWithRoot ((dispatch env tok sess line).2).cwd := by
  simp only [dispatch]
  repeat' split
  all_goals try exact hs
  rename_i out trunc sess' heq
  exact handle_builtin_preserves_root sess _ ((out, trunc), sess') heq hs

/-- C2: starting from the default current directory `/home/user`, after any
sequence of lines dispatched through the router (in particular any sequence
of `cd` commands, the only branch that writes `session.cwd`), the session's
current directory still begins with the fixed root prefix `/home/user` —
no sequence of `cd` operations, with `..` or absolute targets, escapes the
root boundary. -/
theorem cwd_root_prefix_invariant :
    ∀ (env : DispatchEnv) (tok : String → List String) (lines : List String)
      (u : String) (hist : List String) (fsI : Option FSIndex),
      StartsWithRoot (lines.foldl (fun s l => (dispatch env tok s l).2)
        (⟨u, "/home/user", hist, fsI⟩ : Sess)).cwd := by
  intro env tok lines u hist fsI
  have H : ∀ (ls : List String) (s : Sess), StartsWithRoot s.cwd →
      StartsWithRoot (ls.foldl (fun s l => (dispatch env tok s l).2) s).cwd := by
    intro ls
    induction ls with
    | nil => exact fun s hs => hs
    | cons l ls ih =>
      intro s hs
      exact ih _ (dispatch_preserves_root env tok s l hs)
  exact H lines _ root_starts_with_root

/-- C6: `_handle_cd` defaults its target to the filesystem root when no
argument is given (`cd` and `cd /home/user` behave identically); when path
resolution fails, or the resolved node is missing, or it is not a directory,
it returns exactly `bash: cd: <original argument>: No such file or directory`
with the session (in particular `cwd`) unchanged; otherwise it updates `cwd`
to the resolved absolute path and returns empty output. -/
theorem handle_cd_spec :
    ∀ (idx : FSIndex) (sess : Sess) (arg : String),
    sess.fsIndex = some idx →
    ((resolve_target_parts sess.cwd arg = none →
        handle_cd sess ["cd", arg] = some ((cdErrMsg arg, false), sess))
    ∧ (∀ parts, resolve_target_parts sess.cwd arg = some parts →
        get_node idx (parts.drop BASE_FS_PATH_PARTS.length) = none →
        handle_cd sess ["cd", arg] = some ((cdErrMsg arg, false), sess))
    ∧ (∀ parts n, resolve_target_parts sess.cwd arg = some parts →
        get_node idx (parts.drop BASE_FS_PATH_PARTS.length) = some n →
        n.typ ≠ "dir" →
        handle_cd sess ["cd", arg] = some ((cdErrMsg arg, false), sess))
    ∧ (∀ parts n, resolve_target_parts sess.cwd arg = some parts →
        get_node idx (parts.drop BASE_FS_PATH_PARTS.length) = some n →
        n.typ = "dir" →
        handle_cd sess ["cd", arg] =
          some (("", false), sess.setCwd ("/" ++ joinWith "/" parts)))
    ∧ handle_cd sess ["cd"] = handle_cd sess ["cd", ROOT_FS_PATH]) := by
  intro idx sess arg hfs
  refine ⟨?_, ?_, ?_, ?_, ?_⟩
  · intro hres
    simp [handle_cd, hfs, hres]
  · intro parts hres hnode
    simp [handle_cd, hfs, hres, hnode]
  · intro parts n hres hnode hdir
    simp [handle_cd, hfs, hres, hnode, hdir]
  · intro parts n hres hnode hdir
    simp [handle_cd, hfs, hres, hnode, hdir]
  · rfl

/-- Witness for `handle_cd_spec`: a failing and a succeeding `cd` on a
one-node filesystem. -/
theorem handle_cd_spec_w :
    handle_cd ⟨"", "/home/user", [], some (build_index (.mk "dir" "user" [] 0) [])⟩
        ["cd", "nope"] =
      some ((cdErrMsg "nope", false),
        ⟨"", "/home/user", [], some (build_index (.mk "dir" "user" [] 0) [])⟩) ∧
    handle_cd ⟨"", "/home/user", [], some (build_index (.mk "dir" "user" [] 0) [])⟩
        ["cd", "."] =
      some (("", false),
        (⟨"", "/home/user", [], some (build_index (.mk "dir" "user" [] 0) [])⟩ :
          Sess).setCwd ("/" ++ joinWith "/" ["home", "user"])) := by
  constructor
  · exact (handle_cd_spec (build_index (.mk "dir" "user" [] 0) [])
      ⟨"", "/home/user", [], some (build_index (.mk "dir" "user" [] 0) [])⟩
      "nope" rfl).2.1 ["home", "user", "nope"] rfl rfl
  · exact (handle_cd_spec (build_index (.mk "dir" "user" [] 0) [])
      ⟨"", "/home/user", [], some (build_index (.mk "dir" "user" [] 0) [])⟩
      "." rfl).2.2.2.1 ["home", "user"] (.mk "dir" "user" [] 0) rfl rfl rfl

/-- C7: `_handle_ls` ignores every token that starts with `-` and uses at
most the first remaining non-empty argument as its target, so `ls -la <path>`
and `ls <path>` produce identical `(output, truncated)` results for every
session state and every path, and in general `ls` with any argument list
behaves like `ls` with just the first non-flag argument. -/
theorem ls_flags_ignored :
    ∀ (sess : Sess) (path : String) (argv : List String),
    handle_ls sess ["ls", "-la", path] = handle_ls sess ["ls", path]
    ∧ handle_ls sess ("ls" :: argv) =
        handle_ls sess ("ls" :: (argv.filter lsArgKeep).take 1) := by
  intro sess path argv
  have key : ∀ args args' : List String,
      (args.filter lsArgKeep).headD "" = (args'.filter lsArgKeep).headD "" →
      handle_ls sess ("ls" :: args) = handle_ls sess ("ls" :: args') := by
    intro args args' h
    cases hfs : sess.fsIndex with
    | none => simp [handle_ls, hfs]
    | some idx =>
      simp only [handle_ls, hfs, List.drop_succ_cons, List.drop_zero]
      rw [h]
  constructor
  · apply key
    have hla : lsArgKeep "-la" = false := by decide
    simp [List.filter_cons, hla]
  · apply key
    have hsub : ((argv.filter lsArgKeep).take 1).filter lsArgKeep =
        (argv.filter lsArgKeep).take 1 :=
      List.filter_eq_self.mpr (fun a ha => List.of_mem_filter (List.mem_of_mem_take ha))
    rw [hsub]
    cases argv.filter lsArgKeep with
    | nil => rfl
    | cons t ts => rfl

/-! ## Ensemble arbitration -/

/-- Scoring formula as the specification words it: base 10 for a valid
response, +5 for exit code 0, +5 for non-empty stdout plus +3 if the stdout
length exceeds 10, +2 for empty stderr, +1 for a non-empty explanation.
Stated independently of the source's `_score_response` for comparison. -/
def claimScore (response : Option SimResp) (valid : Bool) : Nat :=
  match response, valid with
  | some r, true =>
    10 + (if r.exit_code = some 0 then 5 else 0)
       + (if r.stdout ≠ "" then 5 else 0)
       + (if 10 < r.stdout.data.length then 3 else 0)
       + (if r.stderr = "" then 2 else 0)
       + (if r.explanation ≠ "" then 1 else 0)
  | _, _ => 0

theorem score_pos_some (q : QueryResult)
    (h : 0 < score_response q.response q.valid) : ∃ r, q.response = some r := by
  obtain ⟨v, r⟩ := q
  cases v with
  | false => simp [score_response] at h
  | true =>
    cases r with
    | none => simp [score_response] at h
    | some x => exact ⟨x, rfl⟩

/-- C3: the source's scoring function agrees with the claimed fixed formula
on every response; selection is a pure function of the two responses where
the primary backend wins whenever its score is at least the secondary's and
positive — hence equal nonzero scores always select the primary's output —
the secondary wins when its score is strictly greater, and when both scores
are zero the result is the `command not found` message. -/
theorem ensemble_arbitration_spec :
    ∀ (m : Nat) (cmd : String) (p s : QueryResult),
    (∀ (r : Option SimResp) (v : Bool), score_response r v = claimScore r v)
    ∧ (score_response s.response s.valid ≤ score_response p.response p.valid ∧
        0 < score_response p.response p.valid →
        ∃ rp, p.response = some rp ∧
          simulate_with_ensemble m cmd p s =
            clipOutput m (format_simulated_output rp))
    ∧ (score_response p.response p.valid < score_response s.response s.valid →
        ∃ rs, s.response = some rs ∧
          simulate_with_ensemble m cmd p s =
            clipOutput m (format_simulated_output rs))
    ∧ (score_response p.response p.valid = 0 ∧ score_response s.response s.valid = 0 →
        simulate_with_ensemble m cmd p s =
          ("sh: " ++ cmd ++ ": command not found", false)) := by
  intro m cmd p s
  refine ⟨?_, ?_, ?_, ?_⟩
  · intro r v
    match v, r with
    | false, none => rfl
    | false, some r => rfl
    | true, none => rfl
    | true, some r =>
      simp only [score_response, claimScore]
      by_cases h1 : r.stdout = ""
      · have hl : r.stdout.data.length = 0 := by rw [h1]; rfl
        have h2 : ¬ (10 < r.stdout.data.length) := by omega
        simp [h1, h2]
      · simp only [h1, if_neg, ne_eq, not_false_eq_true, if_true]
        omega
  · intro h
    obtain ⟨rp, hrp⟩ := score_pos_some p h.2
    refine ⟨rp, hrp, ?_⟩
    simp only [simulate_with_ensemble]
    rw [if_pos h, hrp]
    rfl
  · intro h
    have hns : ¬ (score_response s.response s.valid ≤
        score_response p.response p.valid ∧
        0 < score_response p.response p.valid) :=
      fun hc => absurd hc.1 (not_le.mpr h)
    have hs0 : 0 < score_response s.response s.valid :=
      lt_of_le_of_lt (Nat.zero_le _) h
    obtain ⟨rs, hrs⟩ := score_pos_some s hs0
    refine ⟨rs, hrs, ?_⟩
    simp only [simulate_with_ensemble]
    rw [if_neg hns, if_pos hs0, hrs]
    rfl
  · intro h
    simp [simulate_with_ensemble, h.1, h.2]

/-- Witness for `ensemble_arbitration_spec`: the specification's own example
(primary `{stdout:"ok", exitCode:0}` scores 22, secondary
`{stderr:"err", exitCode:1}` scores 10, primary wins with output `"ok"`). -/
theorem ensemble_arbitration_spec_w :
    ∃ rp, (⟨true, some ⟨"ok", "", some 0, ""⟩⟩ : QueryResult).response = some rp ∧
      simulate_with_ensemble 16384 "netstat" ⟨true, some ⟨"ok", "", some 0, ""⟩⟩
          ⟨true, some ⟨"", "err", some 1, ""⟩⟩ =
        clipOutput 16384 (format_simulated_output rp) :=
  (ensemble_arbitration_spec 16384 "netstat" ⟨true, some ⟨"ok", "", some 0, ""⟩⟩
    ⟨true, some ⟨"", "err", some 1, ""⟩⟩).2.1 (by decide)

/-! ## Simulation-fallback error handling -/

/-- C5: whenever the single-backend simulation fallback handles a line (no
builtin, no special case, no canned asset matched) and the backend call
raises or returns a non-structured (non-dict) response, `dispatch` returns
exactly `sh: <cmd>: command not found` with `truncated = false`, where
`<cmd>` is the first token of the line, and the session is unchanged — no
internal error or exception reaches the caller. -/
theorem llm_failure_command_not_found :
    ∀ (env : DispatchEnv) (tok : String → List String) (sess : Sess)
      (line cmd : String) (rest : List String) (res : Except Unit LLMResp),
    tok (pyStrip line) = cmd :: rest →
    pyStrip line ≠ "" →
    cmd ∉ (["id", "whoami", "history", "cat", "pwd", "cd", "ls"] : List String) →
    TXT_CMD_MAP.find? (fun p => p.1 == cmd) = none →
    env.txtcmd cmd = none →
    env.ensemble_mode = false →
    env.llm_client = some res →
    (res = .error () ∨ res = .ok .notDict) →
    dispatch env tok sess line =
      (("sh: " ++ cmd ++ ": command not found", false), sess) := by
  intro env tok sess line cmd rest res htok hne hmem hfind htxt hens hllm hres
  have h1 : cmd ≠ "id" := fun h => hmem (by simp [h])
  have h2 : cmd ≠ "whoami" := fun h => hmem (by simp [h])
  have h3 : cmd ≠ "history" := fun h => hmem (by simp [h])
  have h4 : cmd ≠ "cat" := fun h => hmem (by simp [h])
  have h5 : cmd ≠ "pwd" := fun h => hmem (by simp [h])
  have h6 : cmd ≠ "cd" := fun h => hmem (by simp [h])
  have h7 : cmd ≠ "ls" := fun h => hmem (by simp [h])
  rcases hres with rfl | rfl <;>
    simp [dispatch, hne, htok, h1, h2, h3, h4, h5, h6, h7, handle_builtin,
      hfind, htxt, hens, hllm, simulate_with_llm]

/-- Witness for `llm_failure_command_not_found`: a backend exception on the
line `"frob x"`. -/
theorem llm_failure_command_not_found_w :
    dispatch ⟨7, .ok "", .ok "", .ok "", fun _ => none, false, some (.error ()), none⟩
        pySplitWs ⟨"", "/home/user", [], none⟩ "frob x" =
      (("sh: " ++ "frob" ++ ": command not found", false),
        ⟨"", "/home/user", [], none⟩) :=
  llm_failure_command_not_found _ pySplitWs _ "frob x" "frob" ["x"] (.error ())
    (by decide) (by decide) (by decide) (by decide) rfl rfl rfl (Or.inl rfl)

/-! ## Whitespace-only input -/

/-- C10: a line consisting only of whitespace is stripped to the empty string
and dispatch returns `("", false)` immediately — for every environment (so no
builtin, canned asset, or backend is consulted), with the session unchanged —
exactly as for the empty input line. -/
theorem dispatch_whitespace_noop :
    ∀ (env : DispatchEnv) (tok : String → List String) (sess : Sess) (line : String),
    line.data.all Char.isWhitespace = true →
    dispatch env tok sess line = (("", false), sess) ∧
    dispatch env tok sess line = dispatch env tok sess "" := by
  intro env tok sess line h
  have hdrop : line.data.dropWhile Char.isWhitespace = [] := by
    rw [List.dropWhile_eq_nil_iff]
    intro x hx
    exact List.all_eq_true.mp h x hx
  have hstrip : pyStrip line = "" := by
    unfold pyStrip
    rw [hdrop]
    rfl
  have h1 : dispatch env tok sess line = (("", false), sess) := by
    simp [dispatch, hstrip]
  refine ⟨h1, ?_⟩
  rw [h1]
  simp [dispatch, show pyStrip "" = "" from rfl]

/-- Witness for `dispatch_whitespace_noop` on the line `" \t "`. -/
theorem dispatch_whitespace_noop_w :
    dispatch ⟨5, .ok "", .ok "", .ok "", fun _ => none, false, none, none⟩ pySplitWs
      ⟨"u", "/home/user", [], none⟩ " \t " =
      (("", false), ⟨"u", "/home/user", [], none⟩) :=
  (dispatch_whitespace_noop _ pySplitWs _ " \t " (by decide)).1

/-! ## Backend parse-failure behaviour -/

/-- C9 counterexample: when the raw model output fails to parse/validate,
`BaseLLMClient.simulate_command` does not raise a failure — it returns the
substitute well-formed response `{stdout: "", stderr: "llm-parse-error",
exit_code: 1, explanation: "failed to parse LLM output"}`, refuting the claim
that invalid output surfaces as the backend raising. -/
theorem simulate_command_fallback_cex :
    simulate_command (.ok "not json") (fun _ => none) = .ok fallback_sim ∧
    ∀ e, simulate_command (.ok "not json") (fun _ => none) ≠ .error e := by
  refine ⟨rfl, ?_⟩
  intro e h
  rw [show simulate_command (.ok "not json") (fun _ => none) = .ok fallback_sim
    from rfl] at h
  exact Except.noConfusion h

/-- C9 (amended): on parse or validation failure `simulate_command` does not
raise; it returns the fixed well-formed fallback response (`stdout` empty,
`stderr` `"llm-parse-error"`, `exit_code` 1).  On success it returns the
parsed response with every missing field defaulted (`stdout`/`stderr`/
`explanation` to `""`, `exit_code` to `1`), so the caller always receives a
fully-populated structured response; an exception propagates only when the
raw provider call itself raised. -/
theorem simulate_command_no_raise :
    ∀ (text : String) (parse : String → Option RawSimResp),
    (validate_and_parse_json text parse = none →
      simulate_command (.ok text) parse = .ok fallback_sim)
    ∧ (∀ r, validate_and_parse_json text parse = some r →
      simulate_command (.ok text) parse = .ok (normalize_sim r))
    ∧ (∀ e, simulate_command (.ok text) parse ≠ .error e) := by
  intro text parse
  refine ⟨?_, ?_, ?_⟩
  · intro h
    simp [simulate_command, h]
  · intro r h
    simp [simulate_command, h]
  · intro e h
    simp only [simulate_command] at h
    cases hv : validate_and_parse_json text parse <;> rw [hv] at h <;>
      exact Except.noConfusion h

/-- Witness for `simulate_command_no_raise`: a successfully parsed response
with missing `stderr`/`explanation` keys defaulted. -/
theorem simulate_command_no_raise_w :
    simulate_command (.ok "x") (fun _ => some ⟨some "hi", none, some 0, none⟩) =
      .ok (normalize_sim ⟨some "hi", none, some 0, none⟩) :=
  (simulate_command_no_raise "x" (fun _ => some ⟨some "hi", none, some 0, none⟩)).2.1
    ⟨some "hi", none, some 0, none⟩ rfl

/-! ## Index round-trip -/

mutual
/-- Sibling-name discipline under which the index round-trips: at every
indexed `dir` node, the non-empty names of the children are pairwise
distinct (children with empty names are skipped by `_build_index` and may
repeat; subtrees of non-`dir` nodes are not indexed and are not
constrained).  This is exactly the `FileSystemNode` sibling-uniqueness
invariant the specification's data model postulates. -/
def names_nodup : FSNode → Bool
  | .mk typ _ cs _ =>
    if typ = "dir" then
      decide (((cs.map FSNode.name).filter (fun n => n ≠ "")).Nodup) &&
        names_nodup_children cs
    else true

/-- `names_nodup` for a child list: each indexed child's subtree satisfies
the discipline. -/
def names_nodup_children : List FSNode → Bool
  | [] => true
  | c :: cs => (if c.name = "" then true else names_nodup c) && names_nodup_children cs
end

mutual
/-- Weight of a node, for induction over the nested tree. -/
def nodeWeight : FSNode → Nat
  | .mk _ _ cs _ => 1 + childrenWeight cs

/-- Weight of a child list. -/
def childrenWeight : List FSNode → Nat
  | [] => 0
  | c :: cs => nodeWeight c + childrenWeight cs
end

theorem nodeWeight_pos (t : FSNode) : 1 ≤ nodeWeight t := by
  cases t with
  | mk typ nm cs sz => simp [nodeWeight]

/-- C8 counterexample: a tree whose root has two children both named `"a"`
produces the path `("a",)` twice during the build, and `get_node` returns
only the second inserted node (dict overwrite), not the first — so `getNode`
on a path produced during the build does not return the node that was
inserted at that path. -/
theorem build_index_duplicate_cex :
    (["a"], FSNode.mk "file" "a" [] 1) ∈
      build_index (.mk "dir" "user" [.mk "file" "a" [] 1, .mk "file" "a" [] 2] 0) [] ∧
    get_node (build_index (.mk "dir" "user"
        [.mk "file" "a" [] 1, .mk "file" "a" [] 2] 0) []) ["a"] =
      some (.mk "file" "a" [] 2) ∧
    FSNode.mk "file" "a" [] 1 ≠ FSNode.mk "file" "a" [] 2 := by
  refine ⟨?_, rfl, ?_⟩
  · exact List.Mem.tail _ (List.Mem.head _)
  · intro h
    injection h with h1 h2 h3 h4
    exact absurd h4 (by decide)

/-- Every key produced under a node extends the node's own path. -/
def IndexPref (t : FSNode) : Prop :=
  ∀ rel p, p ∈ (build_index t rel).map Prod.fst → ∃ s, p = rel ++ s

/-- Every key produced under a child list goes through a non-empty child
name. -/
def ChildrenPref (cs : List FSNode) : Prop :=
  ∀ rel p, p ∈ (build_children cs rel).map Prod.fst →
    ∃ c s, c ∈ cs ∧ c.name ≠ "" ∧ p = rel ++ ([c.name] ++ s)

/-- Under the sibling-name discipline the keys of a node's index are
pairwise distinct. -/
def IndexNodup (t : FSNode) : Prop :=
  ∀ rel, names_nodup t = true → ((build_index t rel).map Prod.fst).Nodup

/-- Under the sibling-name discipline the keys of a child list's index are
pairwise distinct. -/
def ChildrenNodup (cs : List FSNode) : Prop :=
  ∀ rel, names_nodup_children cs = true →
    ((cs.map FSNode.name).filter (fun n => n ≠ "")).Nodup →
    ((build_children cs rel).map Prod.fst).Nodup

theorem build_level (k : Nat) :
    (∀ t : FSNode, nodeWeight t ≤ k → IndexPref t ∧ IndexNodup t)
    ∧ (∀ cs : List FSNode, childrenWeight cs ≤ k →
        ChildrenPref cs ∧ ChildrenNodup cs) := by
  induction k with
  | zero =>
    constructor
    · intro t ht
      have := nodeWeight_pos t
      omega
    · intro cs hcs
      match cs with
      | [] =>
        constructor
        · intro rel p hp
          simp [build_children] at hp
        · intro rel _ _
          simp [build_children]
      | c :: cs' =>
        have := nodeWeight_pos c
        simp [childrenWeight] at hcs
        omega
  | succ k ih =>
    have nodeCase : ∀ t : FSNode, nodeWeight t ≤ k + 1 → IndexPref t ∧ IndexNodup t := by
      intro t ht
      match t with
      | .mk typ nm cs sz =>
        have hcs : childrenWeight cs ≤ k := by
          simp [nodeWeight] at ht
          omega
        obtain ⟨cpref, cnodup⟩ := ih.2 cs hcs
        constructor
        · intro rel p hp
          simp only [build_index, List.map_cons, List.mem_cons] at hp
          rcases hp with h | h
          · exact ⟨[], by simp [h]⟩
          · split at h
            · obtain ⟨c, s, _, _, hps⟩ := cpref rel p h
              exact ⟨[c.name] ++ s, hps⟩
            · simp at h
        · intro rel hn
          simp only [build_index, List.map_cons]
          rw [List.nodup_cons]
          constructor
          · intro hmem
            split at hmem
            · obtain ⟨c, s, _, _, hps⟩ := cpref rel rel hmem
              have := congrArg List.length hps
              simp at this
            · simp at hmem
          · split
            · rename_i hdir
              simp only [names_nodup, if_pos hdir, Bool.and_eq_true,
                decide_eq_true_eq] at hn
              exact cnodup rel hn.2 hn.1
            · simp
    have listCase : ∀ cs : List FSNode, childrenWeight cs ≤ k + 1 →
        ChildrenPref cs ∧ ChildrenNodup cs := by
      intro cs hcs
      match cs with
      | [] =>
        constructor
        · intro rel p hp
          simp [build_children] at hp
        · intro rel _ _
          simp [build_children]
      | c :: cs' =>
        have hwc := nodeWeight_pos c
        have hc : nodeWeight c ≤ k + 1 := by
          simp [childrenWeight] at hcs
          omega
        have hcs' : childrenWeight cs' ≤ k := by
          simp [childrenWeight] at hcs
          omega
        obtain ⟨cpref, cnodup⟩ := nodeCase c hc
        obtain ⟨tpref, tnodup⟩ := ih.2 cs' hcs'
        constructor
        · intro rel p hp
          simp only [build_children, List.map_append, List.mem_append] at hp
          rcases hp with h | h
          · split at h
            · simp at h
            · rename_i hname
              obtain ⟨s, hs⟩ := cpref (rel ++ [c.name]) p h
              exact ⟨c, s, List.mem_cons_self _ _, hname, by simp [hs]⟩
          · obtain ⟨c', s, hc', hn', hps⟩ := tpref rel p h
            exact ⟨c', s, List.mem_cons_of_mem _ hc', hn', hps⟩
        · intro rel hnodc hnames
          simp only [names_nodup_children, Bool.and_eq_true] at hnodc
          simp only [build_children, List.map_append]
          rw [List.nodup_append]
          have hfc : (((c :: cs').map FSNode.name).filter (fun n => n ≠ "")) =
              (if c.name = "" then (cs'.map FSNode.name).filter (fun n => n ≠ "")
               else c.name :: (cs'.map FSNode.name).filter (fun n => n ≠ "")) := by
            by_cases hname : c.name = "" <;> simp [List.filter_cons, hname]
          have hnames' : ((cs'.map FSNode.name).filter (fun n => n ≠ "")).Nodup := by
            rw [hfc] at hnames
            split at hnames
            · exact hnames
            · exact hnames.of_cons
          refine ⟨?_, tnodup rel hnodc.2 hnames', ?_⟩
          · split
            · simp
            · rename_i hname
              have hnc : names_nodup c = true := by
                have := hnodc.1
                rwa [if_neg hname] at this
              exact cnodup (rel ++ [c.name]) hnc
          · intro p hp1 hp2
            split at hp1
            · simp at hp1
            · rename_i hname
              obtain ⟨s, hs⟩ := cpref (rel ++ [c.name]) p hp1
              obtain ⟨c', s', hc', hn', hps'⟩ := tpref rel p hp2
              have heq : [c.name] ++ s = [c'.name] ++ s' := by
                have h0 : rel ++ ([c.name] ++ s) = rel ++ ([c'.name] ++ s') := by
                  rw [← List.append_assoc, ← hs, hps']
                exact List.append_cancel_left h0
              have hname_eq : c.name = c'.name := by
                injection heq
              have hmem' : c'.name ∈ (cs'.map FSNode.name).filter (fun n => n ≠ "") :=
                List.mem_filter.mpr ⟨List.mem_map.mpr ⟨c', hc', rfl⟩, by simpa using hn'⟩
              have : ((c.name :: (cs'.map FSNode.name).filter (fun n => n ≠ ""))).Nodup := by
                rw [hfc] at hnames
                rwa [if_neg hname] at hnames
              rw [List.nodup_cons] at this
              exact this.1 (hname_eq ▸ hmem')
    exact ⟨nodeCase, listCase⟩

theorem find?_eq_some_of_mem_nodup :
    ∀ (l : FSIndex) (p : List String) (n : FSNode),
    (l.map Prod.fst).Nodup → (p, n) ∈ l →
    l.find? (fun q => q.1 == p) = some (p, n) := by
  intro l
  induction l with
  | nil =>
    intro p n _ hm
    simp at hm
  | cons a tl ih =>
    intro p n hnd hm
    simp only [List.map_cons, List.nodup_cons] at hnd
    cases hb : (a.1 == p) with
    | true =>
      have hap : a.1 = p := eq_of_beq hb
      have ha : a = (p, n) := by
        rcases List.mem_cons.mp hm with h | h
        · exact h.symm
        · exfalso
          have : p ∈ tl.map Prod.fst := List.mem_map.mpr ⟨(p, n), h, rfl⟩
          exact hnd.1 (hap ▸ this)
      rw [List.find?_cons_of_pos _ (by simpa using hb), ha]
    | false =>
      rw [List.find?_cons_of_neg _ (by simpa using hb)]
      apply ih p n hnd.2
      rcases List.mem_cons.mp hm with h | h
      · exfalso
        rw [← h] at hb
        simp at hb
      · exact h

theorem get_node_of_mem_nodup (idx : FSIndex) (p : List String) (n : FSNode)
    (hnd : (idx.map Prod.fst).Nodup) (hm : (p, n) ∈ idx) :
    get_node idx p = some n := by
  unfold get_node
  rw [find?_eq_some_of_mem_nodup idx.reverse p n
    (by rw [List.map_reverse]; exact List.nodup_reverse.mpr hnd)
    (List.mem_reverse.mpr hm)]
  rfl

theorem get_node_eq_none (idx : FSIndex) (p : List String)
    (h : ∀ n, (p, n) ∉ idx) : get_node idx p = none := by
  unfold get_node
  rw [List.find?_eq_none.mpr]
  · rfl
  · intro x hx hbx
    have hxp : x.1 = p := eq_of_beq hbx
    have hx' : (x.1, x.2) ∈ idx := List.mem_reverse.mp hx
    exact h x.2 (hxp ▸ hx')

/-- C8 (amended): for every tree whose indexed `dir` nodes have pairwise
distinct non-empty sibling names (the data-model invariant; `_build_index`
skips children with empty names), `get_node` on each relative path produced
during the build returns exactly the node inserted at that path, and
`get_node` on any path not produced during the build returns `none`.
Without the sibling-name condition this fails: a duplicated name makes two
inserts share one path and only the last survives. -/
theorem index_roundtrip_nodup :
    ∀ (t : FSNode), names_nodup t = true →
    (∀ p n, (p, n) ∈ build_index t [] → get_node (build_index t []) p = some n)
    ∧ (∀ p, (∀ n, (p, n) ∉ build_index t []) →
        get_node (build_index t []) p = none) := by
  intro t hn
  have hnd : ((build_index t []).map Prod.fst).Nodup :=
    ((build_level (nodeWeight t)).1 t (le_refl _)).2 [] hn
  exact ⟨fun p n hm => get_node_of_mem_nodup _ p n hnd hm,
    fun p hp => get_node_eq_none _ p hp⟩

/-- Witness for `index_roundtrip_nodup` on a two-child tree. -/
theorem index_roundtrip_nodup_w :
    get_node (build_index (.mk "dir" "user"
        [.mk "file" "a" [] 1, .mk "dir" "b" [] 0] 0) []) ["b"] =
      some (.mk "dir" "b" [] 0) :=
  (index_roundtrip_nodup (.mk "dir" "user"
      [.mk "file" "a" [] 1, .mk "dir" "b" [] 0] 0) (by decide)).1
    ["b"] (.mk "dir" "b" [] 0)
    (List.Mem.tail _ (List.Mem.tail _ (List.Mem.head _)))
